import Mathlib

/-!
# Verification of the receding-horizon motion-planner core

Shallow embedding of `scripts/tag_src/motion_planner_module.py`
(class `QuadraticProgram`).  Numeric values are modelled as exact
rationals.  Flat numpy/jax arrays are `List ℚ`; `np.reshape(q, (C, -1))`
followed by row indexing is modelled by `chanGet`.  The jax automatic
differentiation calls (`jacfwd`, `jacrev`) are modelled by exact
finite-difference operators, which agree with forward/reverse-mode AD on
the affine constraint residuals and the quadratic objective of this
module.  The single non-rational operation of the module,
`jnp.linalg.norm` inside `_inequality_constraints`, is modelled by an
explicit parameter `normh`; theorems that depend on its value constrain
it by `0 ≤ normh j` and `normh j * normh j = hx j * hx j + hy j * hy j`,
which
characterises the square root exactly.
-/

set_option autoImplicit false

namespace MotionPlanner

/-- Fixed constants of `QuadraticProgram.__init__`: `self._mass = 0.027`. -/
def mass : ℚ := 27 / 1000

/-- `self._friction = 0.01`. -/
def friction : ℚ := 1 / 100

/-- `self._tol = 1e-03`. -/
def tol : ℚ := 1 / 1000

/-- `self._state_bounds = [2.0, 2.0, 0.075]` (position, velocity, control box bounds). -/
def state_bounds : Fin 3 → ℚ := ![2, 2, 3/40]

/-- `self._weights = [100.0, 1.0, 0.01, 1.0]` (objective weights). -/
def weights : Fin 4 → ℚ := ![100, 1, 1/100, 1]

/-- `config.state_dimension` — the planar model operates with 2 axes. -/
def state_dimension : ℕ := 2

/-- `self._state_size = self._state_dimension * 2`. -/
def state_size : ℕ := state_dimension * 2

/-- `self._full_size = self._state_dimension * 3`. -/
def full_size : ℕ := state_dimension * 3

/-- `self._num_state_slack = 2`. -/
def num_state_slack : ℕ := 2

/-- `self._num_risk_slack = 1`. -/
def num_risk_slack : ℕ := 1

/-- `self._num_slack = self._num_state_slack + self._num_risk_slack`. -/
def num_slack : ℕ := num_state_slack + num_risk_slack

/-- Construction-time configuration of the engine (`config` fields used by
the planner). -/
structure Config where
  nodes : ℕ
  time_horizon : ℚ
  dt : ℚ
  spline_resolution : ℕ
  area_bounds : ℚ

/-- `self.opt_vars = self.prog.NewContinuousVariables((self._full_size + self._num_slack) * self._nodes)`:
the number of decision variables of the persistent QP. -/
def num_opt_vars (cfg : Config) : ℕ := (full_size + num_slack) * cfg.nodes

/-- `self._time_vector = np.linspace(0, self._time_horizon, self._nodes)`:
node `j` sits at time `T * j / (N - 1)`. -/
def timeVector (cfg : Config) (j : ℕ) : ℚ :=
  cfg.time_horizon * j / ((cfg.nodes : ℚ) - 1)

/-- Row `c`, column `j` of `q.reshape((C, -1))` for a flat channel-major
vector whose rows have length `N`: entry `c * N + j`. -/
def chanGet (q : List ℚ) (N c j : ℕ) : ℚ := q.getD (c * N + j) 0

/-- `np.sign`. -/
def np_sign (u : ℚ) : ℚ := if u < 0 then -1 else if 0 < u then 1 else 0

/-- `compute_control` (motion_planner_module.py:578-582): converts an
acceleration to a control value through the drag model and saturates the
result at `± limit`. -/
def compute_control (ddq dq limit : ℚ) : ℚ :=
  let u := ddq * mass + friction * dq
  if |u| < limit then u else np_sign u * limit

/-- `compute_acceleration` (motion_planner_module.py:584-585), per entry. -/
def compute_acceleration (u dx : ℚ) : ℚ := (u - friction * dx) / mass

/-- The initial-condition preprocessing of `build_optimization` /
`update_qp` (motion_planner_module.py:486-498): entries `-3` and `-2` of
the 9-vector (indices 6 and 7) are replaced by the drag-model control
equivalents of the two planar accelerations, saturated at the control box
bound `self._state_bounds[2]`. -/
def convert_initial_conditions (ic : List ℚ) : List ℚ :=
  (ic.set 6 (compute_control (ic.getD 6 0) (ic.getD 3 0) (state_bounds 2))).set 7
    (compute_control (ic.getD 7 0) (ic.getD 4 0) (state_bounds 2))

/-- `_equality_constraints` (motion_planner_module.py:177-244).
`q.reshape((num_states + num_slack, -1))` has rows of length `N`; the
output is `np.concatenate([initial_condition, x_defect, y_defect,
dx_defect, dy_defect])`. -/
def equality_constraints (q initial_conditions : List ℚ)
    (mass friction dt : ℚ) (N : ℕ) : List ℚ :=
  let x : ℕ → ℚ := fun j => chanGet q N 0 j
  let y : ℕ → ℚ := fun j => chanGet q N 1 j
  let dx : ℕ → ℚ := fun j => chanGet q N 2 j
  let dy : ℕ → ℚ := fun j => chanGet q N 3 j
  let ux : ℕ → ℚ := fun j => chanGet q N 4 j
  let uy : ℕ → ℚ := fun j => chanGet q N 5 j
  let ddx : ℕ → ℚ := fun j => (ux j - friction * dx j) / mass
  let ddy : ℕ → ℚ := fun j => (uy j - friction * dy j) / mass
  let collocation : (ℕ → ℚ) → (ℕ → ℚ) → List ℚ := fun p v =>
    List.ofFn (fun i : Fin (N - 1) => p (i + 1) - p i - v i * dt)
  let initial_condition : List ℚ :=
    [x 0 - initial_conditions.getD 0 0,
     y 0 - initial_conditions.getD 1 0,
     dx 0 - initial_conditions.getD 3 0,
     dy 0 - initial_conditions.getD 4 0,
     ux 0 - initial_conditions.getD 6 0,
     uy 0 - initial_conditions.getD 7 0]
  List.flatten
    [initial_condition, collocation x dx, collocation y dy,
     collocation dx ddx, collocation dy ddy]

/-- `_inequality_constraints` (motion_planner_module.py:246-302).
The obstacle trajectory, the halfspace vector and its per-node norm
(`jnp.linalg.norm(halfspace_vector, axis=0)`, the parameter `normh`) are
given per axis as functions of the node index.  `area_bound` is the
flattened `(2, 2, N)` stack, `rfun` the flattened `(SR, N)` outer product
`rfun[i, j] = s[j] - (m[i] * x[j] + b[i])`. -/
def inequality_constraints (q : List ℚ)
    (obs_x obs_y hs_x hs_y normh slope intercept : ℕ → ℚ)
    (limit_x limit_y : ℚ) (N SR : ℕ) : List ℚ :=
  let x : ℕ → ℚ := fun j => chanGet q N 0 j
  let y : ℕ → ℚ := fun j => chanGet q N 1 j
  let sx : ℕ → ℚ := fun j => chanGet q N 6 j
  let sy : ℕ → ℚ := fun j => chanGet q N 7 j
  let s : ℕ → ℚ := fun j => chanGet q N 8 j
  let area_bound : List ℚ :=
    List.flatten
      [List.ofFn (fun j : Fin N => -x j - limit_x - sx j),
       List.ofFn (fun j : Fin N => -y j - limit_y - sy j),
       List.ofFn (fun j : Fin N => x j - limit_x - sx j),
       List.ofFn (fun j : Fin N => y j - limit_y - sy j)]
  let rel_x : ℕ → ℚ := fun j => obs_x j - x j
  let rel_y : ℕ → ℚ := fun j => obs_y j - y j
  let linearized_distance : ℕ → ℚ := fun j =>
    (rel_x j * hs_x j + rel_y j * hs_y j) /
      (hs_x j * hs_x j + hs_y j * hs_y j) * normh j
  let rfun : List ℚ :=
    (List.ofFn (fun i : Fin SR =>
      List.ofFn (fun j : Fin N =>
        -(slope i * linearized_distance j + intercept i) + s j))).flatten
  area_bound ++ rfun

/-- `_objective_function` (motion_planner_module.py:304-340).  The three
quadratic terms are `(N,)`-shaped per-node arrays, but `minimize_failure
= -w[3] * jnp.sum(slack_variable, axis=0)` reduces the risk-slack channel
to a 0-d SCALAR; the final `jnp.sum(... + minimize_failure, axis=0)`
broadcasts that scalar to every one of the `N` node terms, so the
objective's risk-reward contribution is `-N * w3 * sum(s)`. -/
def objective_function (q : List ℚ) (w : Fin 4 → ℚ) (N : ℕ) : ℚ :=
  let minimize_slack_position : ℕ → ℚ := fun j =>
    w 0 * (chanGet q N 6 j ^ 2 + chanGet q N 7 j ^ 2)
  let minimize_acceleration_effort : ℕ → ℚ := fun j =>
    w 1 * (chanGet q N 4 j ^ 2 + chanGet q N 5 j ^ 2)
  let minimize_velocity_effort : ℕ → ℚ := fun j =>
    w 2 * (chanGet q N 2 j ^ 2 + chanGet q N 3 j ^ 2)
  let minimize_failure : ℚ := -(w 3) * ∑ j ∈ Finset.range N, chanGet q N 8 j
  ∑ j ∈ Finset.range N,
    (minimize_slack_position j + minimize_acceleration_effort j +
     minimize_velocity_effort j + minimize_failure)

/-- Add `ε` to coordinate `c` of a flat vector. -/
def bump (v : List ℚ) (c : ℕ) (ε : ℚ) : List ℚ := v.set c (v.getD c 0 + ε)

/-- Model of `jax.jacfwd` applied to a scalar function (the gradient),
evaluated by a central difference — exact for the polynomial objectives of
degree ≤ 2 appearing in this module. -/
def grad_fd (φ : List ℚ → ℚ) (sp : List ℚ) (c : ℕ) : ℚ :=
  (φ (bump sp c 1) - φ (bump sp c (-1))) / 2

/-- Model of `jax.jacfwd` applied to a vector-valued function, evaluated
by a central difference — exact for the affine residuals of this module. -/
def jac_fd (F : List ℚ → List ℚ) (sp : List ℚ) (r c : ℕ) : ℚ :=
  ((F (bump sp c 1)).getD r 0 - (F (bump sp c (-1))).getD r 0) / 2

/-- Model of `jax.jacfwd(jacrev φ)` (the Hessian), evaluated by the
polarization identity — exact for polynomials of degree ≤ 2. -/
def hess_fd (φ : List ℚ → ℚ) (sp : List ℚ) (r c : ℕ) : ℚ :=
  φ (bump (bump sp r 1) c 1) - φ (bump sp r 1) - φ (bump sp c 1) + φ sp

/-- `self.opt_var_lb` (motion_planner_module.py:76-85); `none` stands for
`np.NINF`. -/
def opt_var_lb (N : ℕ) : List (Option ℚ) :=
  List.flatten
    [List.replicate (state_dimension * N) (some (-(state_bounds 0))),
     List.replicate (state_dimension * N) (some (-(state_bounds 1))),
     List.replicate (state_dimension * N) (some (-(state_bounds 2))),
     List.replicate (num_state_slack * N) (some 0),
     List.replicate (num_risk_slack * N) none]

/-- `self.opt_var_ub` (motion_planner_module.py:86-95); `none` stands for
`np.Inf`. -/
def opt_var_ub (N : ℕ) : List (Option ℚ) :=
  List.flatten
    [List.replicate (state_dimension * N) (some (state_bounds 0)),
     List.replicate (state_dimension * N) (some (state_bounds 1)),
     List.replicate (state_dimension * N) (some (state_bounds 2)),
     List.replicate (num_state_slack * N) none,
     List.replicate (num_risk_slack * N) (some 0)]

/-- A lower bound entry is satisfied (`none` = unbounded below). -/
def lbOk (o : Option ℚ) (v : ℚ) : Bool := o.all fun b => decide (b ≤ v)

/-- An upper bound entry is satisfied (`none` = unbounded above). -/
def ubOk (o : Option ℚ) (v : ℚ) : Bool := o.all fun b => decide (v ≤ b)

/-- The bounding-box constraint added by
`self.prog.AddBoundingBoxConstraint(self.opt_var_lb, self.opt_var_ub, self.opt_vars)`. -/
def satisfiesBox (cfg : Config) (q : List ℚ) : Prop :=
  ∀ i < num_opt_vars cfg,
    lbOk ((opt_var_lb cfg.nodes).getD i none) (q.getD i 0) = true ∧
    ubOk ((opt_var_ub cfg.nodes).getD i none) (q.getD i 0) = true

instance (cfg : Config) (q : List ℚ) : Decidable (satisfiesBox cfg q) := by
  unfold satisfiesBox; infer_instance

/-- The three per-tick input ports of the system
(motion_planner_module.py:119-136): the 9-entry initial condition, the
6-entry obstacle state, and the flat `(spline_resolution, 2)` risk
parameters `[slope_0, intercept_0, slope_1, intercept_1, ...]`. -/
structure TickInputs where
  initial_condition : List ℚ
  obstacle_states : List ℚ
  risk_constraints : List ℚ

/-- The result returned by `self.gurobi.Solve(...)`: success flag and the
flat solution vector `GetSolution(self.opt_vars)`. -/
structure SolveResult where
  is_success : Bool
  solution : List ℚ

/-- The numeric coefficients pushed into the persistent QP on every tick:
equality block, inequality block (with its `np.NINF` lower bounds,
modelled as `none`), and quadratic cost. -/
structure Coeffs where
  A_eq : ℕ → ℕ → ℚ
  b_eq : List ℚ
  A_ineq : ℕ → ℕ → ℚ
  b_ineq_lb : List (Option ℚ)
  b_ineq_ub : List ℚ
  H : ℕ → ℕ → ℚ
  f : ℕ → ℚ

/-- The cross-tick mutable state of the engine: `self._setpoint` (written
once in `__init__`, line 56), `self._warm_start`,
`self._full_state_trajectory`, the declared abstract output state, and the
coefficients currently stored in the persistent program. -/
structure EngineState where
  setpoint : List ℚ
  warm_start : List ℚ
  full_state_trajectory : List ℚ
  abstract_state : List ℚ
  coeffs : Coeffs

/-- The coefficient computation of `update_qp`
(motion_planner_module.py:484-542), identical to the one in
`build_optimization` (lines 342-430): convert the initial condition,
reshape the risk constraints, project the obstacle trajectory over the
time vector, form the halfspace vector against the previous planned
trajectory read from `self._warm_start`, and evaluate all residuals and
Jacobians at `self._setpoint`. -/
def update_qp_coeffs (cfg : Config) (normh : ℕ → ℚ)
    (st : EngineState) (inp : TickInputs) : Coeffs :=
  let ic := convert_initial_conditions inp.initial_condition
  let slope : ℕ → ℚ := fun i => inp.risk_constraints.getD (2 * i) 0
  let intercept : ℕ → ℚ := fun i => inp.risk_constraints.getD (2 * i + 1) 0
  let previous_x : ℕ → ℚ := fun j => chanGet st.warm_start cfg.nodes 0 j
  let previous_y : ℕ → ℚ := fun j => chanGet st.warm_start cfg.nodes 1 j
  let obs_x : ℕ → ℚ := fun j =>
    inp.obstacle_states.getD 3 0 * timeVector cfg j + inp.obstacle_states.getD 0 0
  let obs_y : ℕ → ℚ := fun j =>
    inp.obstacle_states.getD 4 0 * timeVector cfg j + inp.obstacle_states.getD 1 0
  let hs_x : ℕ → ℚ := fun j => obs_x j - previous_x j
  let hs_y : ℕ → ℚ := fun j => obs_y j - previous_y j
  let eq_func : List ℚ → List ℚ := fun q =>
    equality_constraints q ic mass friction cfg.dt cfg.nodes
  let ineq_func : List ℚ → List ℚ := fun q =>
    inequality_constraints q obs_x obs_y hs_x hs_y normh slope intercept
      cfg.area_bounds cfg.area_bounds cfg.nodes cfg.spline_resolution
  let obj_func : List ℚ → ℚ := fun q => objective_function q weights cfg.nodes
  let b_ineq_ub := (ineq_func st.setpoint).map Neg.neg
  { A_eq := jac_fd eq_func st.setpoint
    b_eq := (eq_func st.setpoint).map Neg.neg
    A_ineq := jac_fd ineq_func st.setpoint
    b_ineq_lb := List.replicate b_ineq_ub.length none
    b_ineq_ub := b_ineq_ub
    H := hess_fd obj_func st.setpoint
    f := grad_fd obj_func st.setpoint }

/-- `RemoveTinyCoefficient(self._tol)` on a stored constraint matrix:
entries of magnitude at most `tol` are zeroed. -/
def removeTinyCoefficient (A : ℕ → ℕ → ℚ) : ℕ → ℕ → ℚ := fun r c =>
  if |A r c| ≤ tol then 0 else A r c

/-- `UpdateCoefficients` followed by `RemoveTinyCoefficient` on the stored
constraint evaluators (motion_planner_module.py:544-562): the program's
coefficients are replaced (constraint matrices pruned); `self._warm_start`,
`self._setpoint` and the trajectory state are untouched. -/
def applyCoeffs (st : EngineState) (c : Coeffs) : EngineState :=
  { st with coeffs :=
    { c with A_eq := removeTinyCoefficient c.A_eq
             A_ineq := removeTinyCoefficient c.A_ineq } }

/-- `parse_solution` (motion_planner_module.py:587-631).  On a failed
solve the source prints diagnostics and enters `pdb.set_trace()`, then
falls through: the decode and the state writes below happen
unconditionally, for failed and successful solves alike. -/
def parse_solution (cfg : Config) (st : EngineState) (res : SolveResult) :
    EngineState :=
  let N := cfg.nodes
  let x_sol := List.ofFn fun j : Fin N => chanGet res.solution N 0 j
  let y_sol := List.ofFn fun j : Fin N => chanGet res.solution N 1 j
  let dx_sol := List.ofFn fun j : Fin N => chanGet res.solution N 2 j
  let dy_sol := List.ofFn fun j : Fin N => chanGet res.solution N 3 j
  let ux_sol := List.ofFn fun j : Fin N => chanGet res.solution N 4 j
  let uy_sol := List.ofFn fun j : Fin N => chanGet res.solution N 5 j
  let sx_sol := List.ofFn fun j : Fin N => chanGet res.solution N 6 j
  let sy_sol := List.ofFn fun j : Fin N => chanGet res.solution N 7 j
  let s_sol := List.ofFn fun j : Fin N => chanGet res.solution N 8 j
  let ddx := List.ofFn fun j : Fin N =>
    compute_acceleration (chanGet res.solution N 4 j) (chanGet res.solution N 2 j)
  let ddy := List.ofFn fun j : Fin N =>
    compute_acceleration (chanGet res.solution N 5 j) (chanGet res.solution N 3 j)
  let full_state_trajectory :=
    List.flatten [x_sol, y_sol, dx_sol, dy_sol, ddx, ddy]
  { st with
    full_state_trajectory := full_state_trajectory
    warm_start :=
      List.flatten
        [x_sol, y_sol, dx_sol, dy_sol, ux_sol, uy_sol, sx_sol, sy_sol, s_sol]
    abstract_state := full_state_trajectory }

/-- One periodic tick of the engine (`update_qp`, lines 484-575): rebuild
the coefficients from the current inputs, push them into the program,
invoke the solver (modelled as the externally supplied `res`), and parse
the returned solution. -/
def tick (cfg : Config) (normh : ℕ → ℚ) (st : EngineState)
    (inp : TickInputs) (res : SolveResult) : EngineState :=
  parse_solution cfg (applyCoeffs st (update_qp_coeffs cfg normh st inp)) res

/-- Zero-valued coefficient store standing for the not-yet-constructed
program. -/
def emptyCoeffs : Coeffs :=
  { A_eq := fun _ _ => 0, b_eq := [], A_ineq := fun _ _ => 0,
    b_ineq_lb := [], b_ineq_ub := [], H := fun _ _ => 0, f := fun _ => 0 }

/-- The engine state as initialised in `__init__`
(motion_planner_module.py:56-116): `self._setpoint`, `self._warm_start`,
`self._full_state_trajectory` and the abstract output state all start as
zero vectors of their respective sizes. -/
def preBuildState (cfg : Config) : EngineState :=
  { setpoint := List.replicate ((full_size + num_slack) * cfg.nodes) 0
    warm_start := List.replicate ((full_size + num_slack) * cfg.nodes) 0
    full_state_trajectory := List.replicate (full_size * cfg.nodes) 0
    abstract_state := List.replicate (full_size * cfg.nodes) 0
    coeffs := emptyCoeffs }

/-- `build_optimization` (motion_planner_module.py:342-482): compute the
coefficients exactly as `update_qp` does (at `self._setpoint`, against the
all-zero initial `self._warm_start`), construct the program with the raw
matrices (`AddLinearConstraint`/`AddQuadraticCost` — unlike `update_qp`,
no `RemoveTinyCoefficient` pruning happens at construction), solve once,
and parse the solution. -/
def build_optimization (cfg : Config) (normh : ℕ → ℚ)
    (inp : TickInputs) (res : SolveResult) : EngineState :=
  parse_solution cfg
    { preBuildState cfg with
      coeffs := update_qp_coeffs cfg normh (preBuildState cfg) inp } res

/-! ## List-indexing helper lemmas -/

lemma getD_ofFn_lt {α : Type} {n : ℕ} (f : Fin n → α) (d : α) (i : ℕ)
    (h : i < n) : (List.ofFn f).getD i d = f ⟨i, h⟩ := by
  have hl : i < (List.ofFn f).length := by simpa using h
  rw [List.getD_eq_getElem _ _ hl]
  simp

lemma getD_flatten_const {α : Type} {d : α} (l : List (List α)) (N : ℕ)
    (h : ∀ s ∈ l, s.length = N) (i j : ℕ) (hj : j < N) :
    l.flatten.getD (i * N + j) d = (l.getD i []).getD j d := by
  induction l generalizing i with
  | nil => simp
  | cons a l ih =>
    have ha : a.length = N := h a (List.mem_cons_self a l)
    have hl : ∀ s ∈ l, s.length = N := fun s hs => h s (List.mem_cons_of_mem a hs)
    cases i with
    | zero =>
      have hlt : (0 : ℕ) * N + j < a.length := by omega
      simp only [List.flatten_cons, Nat.zero_mul, Nat.zero_add] at *
      rw [List.getD_append _ _ _ _ (by omega)]
      simp
    | succ k =>
      have hidx : a.length ≤ Nat.succ k * N + j := by
        rw [ha, Nat.succ_mul]; omega
      simp only [List.flatten_cons]
      rw [List.getD_append_right _ _ _ _ hidx]
      have harith : Nat.succ k * N + j - a.length = k * N + j := by
        rw [ha, Nat.succ_mul]; omega
      rw [harith, ih hl k]
      simp

lemma length_flatten_ofFn {SR : ℕ} (g : Fin SR → List ℚ) (N : ℕ)
    (h : ∀ i, (g i).length = N) : ((List.ofFn g).flatten).length = SR * N := by
  rw [List.length_flatten]
  simp only [List.map_ofFn, Function.comp_def, h, List.ofFn_const,
    List.sum_const_nat]

lemma getD_append_offset {α : Type} {d : α} (l1 l2 : List α) (k : ℕ)
    (h : l1.length = k) (i : ℕ) : (l1 ++ l2).getD (k + i) d = l2.getD i d := by
  rw [List.getD_append_right _ _ _ _ (by omega)]
  congr 1
  omega

/-! ## Shapes of the constraint blocks -/

/-- The equality residual written as the explicit concatenation of its
five blocks. -/
lemma equality_constraints_blocks (q ic : List ℚ) (m fr dt : ℚ) (N : ℕ) :
    equality_constraints q ic m fr dt N =
      [chanGet q N 0 0 - ic.getD 0 0,
       chanGet q N 1 0 - ic.getD 1 0,
       chanGet q N 2 0 - ic.getD 3 0,
       chanGet q N 3 0 - ic.getD 4 0,
       chanGet q N 4 0 - ic.getD 6 0,
       chanGet q N 5 0 - ic.getD 7 0] ++
      ((List.ofFn fun i : Fin (N - 1) =>
        chanGet q N 0 (i + 1) - chanGet q N 0 i - chanGet q N 2 i * dt) ++
      ((List.ofFn fun i : Fin (N - 1) =>
        chanGet q N 1 (i + 1) - chanGet q N 1 i - chanGet q N 3 i * dt) ++
      ((List.ofFn fun i : Fin (N - 1) =>
        chanGet q N 2 (i + 1) - chanGet q N 2 i
          - (chanGet q N 4 i - fr * chanGet q N 2 i) / m * dt) ++
      (List.ofFn fun i : Fin (N - 1) =>
        chanGet q N 3 (i + 1) - chanGet q N 3 i
          - (chanGet q N 5 i - fr * chanGet q N 3 i) / m * dt)))) := by
  simp [equality_constraints]

lemma equality_constraints_length (q ic : List ℚ) (m fr dt : ℚ) (N : ℕ) :
    (equality_constraints q ic m fr dt N).length = 6 + 4 * (N - 1) := by
  simp [equality_constraints]
  ring

lemma inequality_constraints_length (q : List ℚ)
    (obs_x obs_y hs_x hs_y normh slope intercept : ℕ → ℚ)
    (limit_x limit_y : ℚ) (N SR : ℕ) :
    (inequality_constraints q obs_x obs_y hs_x hs_y normh slope intercept
      limit_x limit_y N SR).length = 4 * N + SR * N := by
  unfold inequality_constraints
  rw [List.length_append, length_flatten_ofFn _ N (by intro i; simp)]
  simp
  ring

/-- The inequality residual written as the explicit concatenation of its
four workspace blocks and the flattened `(SR, N)` risk block. -/
lemma inequality_constraints_blocks (q : List ℚ)
    (obs_x obs_y hs_x hs_y normh slope intercept : ℕ → ℚ)
    (limit_x limit_y : ℚ) (N SR : ℕ) :
    inequality_constraints q obs_x obs_y hs_x hs_y normh slope intercept
      limit_x limit_y N SR =
      (List.ofFn fun j : Fin N =>
        -chanGet q N 0 j - limit_x - chanGet q N 6 j) ++
      ((List.ofFn fun j : Fin N =>
        -chanGet q N 1 j - limit_y - chanGet q N 7 j) ++
      ((List.ofFn fun j : Fin N =>
        chanGet q N 0 j - limit_x - chanGet q N 6 j) ++
      ((List.ofFn fun j : Fin N =>
        chanGet q N 1 j - limit_y - chanGet q N 7 j) ++
      (List.ofFn fun i : Fin SR =>
        List.ofFn fun j : Fin N =>
          -(slope i *
              (((obs_x j - chanGet q N 0 j) * hs_x j +
                (obs_y j - chanGet q N 1 j) * hs_y j) /
                (hs_x j * hs_x j + hs_y j * hs_y j) * normh j) +
            intercept i) + chanGet q N 8 j).flatten))) := by
  simp only [inequality_constraints, List.flatten_cons, List.flatten_nil,
    List.append_nil, List.append_assoc]

/-- For a true Euclidean norm `n` of `(hx, hy)`, the source's
`(d / (hx*hx + hy*hy)) * n` is the normalized projection `d / n`. -/
lemma lin_dist_norm (d hx hy n : ℚ) (hn0 : 0 ≤ n)
    (hnsq : n * n = hx * hx + hy * hy) :
    d / (hx * hx + hy * hy) * n = d / n := by
  rcases eq_or_ne n 0 with h0 | h0
  · have hx0 : hx * hx + hy * hy = 0 := by rw [← hnsq, h0]; ring
    have hhx : hx = 0 := by nlinarith [mul_self_nonneg hx, mul_self_nonneg hy]
    have hhy : hy = 0 := by nlinarith [mul_self_nonneg hx, mul_self_nonneg hy]
    simp [h0, hhx, hhy]
  · have hh : hx * hx + hy * hy = n * n := hnsq.symm
    rw [hh]
    field_simp
    ring

/-- The two one-sided workspace rows at a node are jointly equivalent to
the absolute-value bound `|position| - limit - slack ≤ 0`. -/
lemma area_pair_abs (xv l s : ℚ) :
    (-xv - l - s ≤ 0 ∧ xv - l - s ≤ 0) ↔ |xv| - l - s ≤ 0 := by
  constructor
  · rintro ⟨h1, h2⟩
    have habs : |xv| ≤ l + s := abs_le.mpr ⟨by linarith, by linarith⟩
    linarith
  · intro h
    have habs := abs_le.mp (by linarith : |xv| ≤ l + s)
    exact ⟨by linarith [habs.1], by linarith [habs.2]⟩

lemma ineq_rows_area (q : List ℚ)
    (obs_x obs_y hs_x hs_y normh slope intercept : ℕ → ℚ)
    (limit_x limit_y : ℚ) (N SR : ℕ) (j : Fin N) :
    (inequality_constraints q obs_x obs_y hs_x hs_y normh slope intercept
        limit_x limit_y N SR).getD j 0
      = -chanGet q N 0 j - limit_x - chanGet q N 6 j ∧
    (inequality_constraints q obs_x obs_y hs_x hs_y normh slope intercept
        limit_x limit_y N SR).getD (N + j) 0
      = -chanGet q N 1 j - limit_y - chanGet q N 7 j ∧
    (inequality_constraints q obs_x obs_y hs_x hs_y normh slope intercept
        limit_x limit_y N SR).getD (2 * N + j) 0
      = chanGet q N 0 j - limit_x - chanGet q N 6 j ∧
    (inequality_constraints q obs_x obs_y hs_x hs_y normh slope intercept
        limit_x limit_y N SR).getD (3 * N + j) 0
      = chanGet q N 1 j - limit_y - chanGet q N 7 j := by
  have hj : (j : ℕ) < N := j.isLt
  rw [inequality_constraints_blocks]
  refine ⟨?_, ?_, ?_, ?_⟩
  · rw [List.getD_append _ _ _ _ (by simp only [List.length_ofFn]; exact hj),
      getD_ofFn_lt _ _ _ hj]
  · rw [getD_append_offset _ _ N (by simp) _,
      List.getD_append _ _ _ _ (by simp only [List.length_ofFn]; exact hj),
      getD_ofFn_lt _ _ _ hj]
  · have h2 : 2 * N + (j : ℕ) = N + (N + (j : ℕ)) := by omega
    rw [h2, getD_append_offset _ _ N (by simp) _,
      getD_append_offset _ _ N (by simp) _,
      List.getD_append _ _ _ _ (by simp only [List.length_ofFn]; exact hj),
      getD_ofFn_lt _ _ _ hj]
  · have h3 : 3 * N + (j : ℕ) = N + (N + (N + (j : ℕ))) := by omega
    rw [h3, getD_append_offset _ _ N (by simp) _,
      getD_append_offset _ _ N (by simp) _,
      getD_append_offset _ _ N (by simp) _,
      List.getD_append _ _ _ _ (by simp only [List.length_ofFn]; exact hj),
      getD_ofFn_lt _ _ _ hj]

lemma ineq_rows_risk (q : List ℚ)
    (obs_x obs_y hs_x hs_y normh slope intercept : ℕ → ℚ)
    (limit_x limit_y : ℚ) (N SR : ℕ)
    (hn : ∀ j < N, 0 ≤ normh j ∧ normh j * normh j = hs_x j * hs_x j + hs_y j * hs_y j)
    (i : Fin SR) (j : Fin N) :
    (inequality_constraints q obs_x obs_y hs_x hs_y normh slope intercept
        limit_x limit_y N SR).getD (4 * N + i * N + j) 0
      = chanGet q N 8 j -
          (slope i *
            (((obs_x j - chanGet q N 0 j) * hs_x j +
              (obs_y j - chanGet q N 1 j) * hs_y j) / normh j) +
           intercept i) := by
  have hj : (j : ℕ) < N := j.isLt
  rw [inequality_constraints_blocks]
  have h4 : 4 * N + (i : ℕ) * N + (j : ℕ)
      = N + (N + (N + (N + ((i : ℕ) * N + (j : ℕ))))) := by omega
  rw [h4, getD_append_offset _ _ N (by simp) _,
    getD_append_offset _ _ N (by simp) _,
    getD_append_offset _ _ N (by simp) _,
    getD_append_offset _ _ N (by simp) _,
    getD_flatten_const _ N
      (by
        intro s hs
        rw [List.mem_ofFn] at hs
        obtain ⟨a, ha⟩ := hs
        rw [← ha, List.length_ofFn]) _ _ hj,
    getD_ofFn_lt _ _ _ i.isLt, getD_ofFn_lt _ _ _ hj]
  obtain ⟨hn0, hnsq⟩ := hn j hj
  rw [lin_dist_norm _ _ _ _ hn0 hnsq]
  ring

lemma getD_set_self (l : List ℚ) (i : ℕ) (a : ℚ) (h : i < l.length) :
    (l.set i a).getD i 0 = a := by
  rw [List.getD_eq_getElem _ _ (by simpa using h)]
  simp [List.getElem_set, h]

lemma getD_set_ne (l : List ℚ) (i j : ℕ) (a : ℚ) (h : i ≠ j) :
    (l.set i a).getD j 0 = l.getD j 0 := by
  simp [List.getD, List.getElem?_set_ne h]

/-- The six initial-condition rows of the equality residual. -/
lemma eq_rows_initial (q ic : List ℚ) (m fr dt : ℚ) (N : ℕ) :
    (equality_constraints q ic m fr dt N).getD 0 0
        = chanGet q N 0 0 - ic.getD 0 0 ∧
    (equality_constraints q ic m fr dt N).getD 1 0
        = chanGet q N 1 0 - ic.getD 1 0 ∧
    (equality_constraints q ic m fr dt N).getD 2 0
        = chanGet q N 2 0 - ic.getD 3 0 ∧
    (equality_constraints q ic m fr dt N).getD 3 0
        = chanGet q N 3 0 - ic.getD 4 0 ∧
    (equality_constraints q ic m fr dt N).getD 4 0
        = chanGet q N 4 0 - ic.getD 6 0 ∧
    (equality_constraints q ic m fr dt N).getD 5 0
        = chanGet q N 5 0 - ic.getD 7 0 := by
  rw [equality_constraints_blocks]
  refine ⟨?_, ?_, ?_, ?_, ?_, ?_⟩ <;>
    rw [List.getD_append _ _ _ _ (by simp)] <;> rfl

/-- `compute_control` is exactly the clamp of the drag-model conversion
onto `[-limit, limit]`. -/
lemma compute_control_clamp (ddq dq l : ℚ) (hl : 0 < l) :
    compute_control ddq dq l = max (-l) (min l (ddq * mass + friction * dq)) := by
  unfold compute_control np_sign
  set u := ddq * mass + friction * dq with hu
  by_cases h : |u| < l
  · have h1 := abs_lt.mp h
    rw [if_pos h, min_eq_right (le_of_lt h1.2), max_eq_right (le_of_lt h1.1)]
  · rw [if_neg h]
    push_neg at h
    rcases lt_trichotomy u 0 with hu0 | hu0 | hu0
    · have habs : |u| = -u := abs_of_neg hu0
      have hle : u ≤ -l := by rw [habs] at h; linarith
      rw [if_pos hu0, min_eq_right (by linarith), max_eq_left (by linarith)]
      ring
    · exfalso
      rw [hu0, abs_zero] at h
      linarith
    · have habs : |u| = u := abs_of_pos hu0
      have hle : l ≤ u := by rw [habs] at h; linarith
      rw [if_neg (by linarith), if_pos hu0, min_eq_left hle,
        max_eq_right (by linarith)]
      ring

/-- C3 (amended): the planner converts the two planar accelerations to
control values via the drag model `u = ddq*mass + friction*dq` and then
SATURATES each converted control at the control box bound
`state_bounds 2 = 0.075` before constraint assembly; the node-0 equality
rows reproduce the position and velocity components of the supplied
initial condition exactly (no clamping), while the two control rows
reproduce the saturated conversion — an out-of-range acceleration is
silently clamped rather than surfacing as solver infeasibility. -/
theorem C3_initial_condition_handling (ic q : List ℚ) (dt : ℚ) (N : ℕ)
    (h9 : ic.length = 9) :
    ((convert_initial_conditions ic).getD 0 0 = ic.getD 0 0 ∧
     (convert_initial_conditions ic).getD 1 0 = ic.getD 1 0 ∧
     (convert_initial_conditions ic).getD 3 0 = ic.getD 3 0 ∧
     (convert_initial_conditions ic).getD 4 0 = ic.getD 4 0) ∧
    ((convert_initial_conditions ic).getD 6 0
        = max (-(state_bounds 2))
            (min (state_bounds 2) (ic.getD 6 0 * mass + friction * ic.getD 3 0)) ∧
     (convert_initial_conditions ic).getD 7 0
        = max (-(state_bounds 2))
            (min (state_bounds 2) (ic.getD 7 0 * mass + friction * ic.getD 4 0))) ∧
    ((equality_constraints q (convert_initial_conditions ic)
        mass friction dt N).getD 0 0 = chanGet q N 0 0 - ic.getD 0 0 ∧
     (equality_constraints q (convert_initial_conditions ic)
        mass friction dt N).getD 1 0 = chanGet q N 1 0 - ic.getD 1 0 ∧
     (equality_constraints q (convert_initial_conditions ic)
        mass friction dt N).getD 2 0 = chanGet q N 2 0 - ic.getD 3 0 ∧
     (equality_constraints q (convert_initial_conditions ic)
        mass friction dt N).getD 3 0 = chanGet q N 3 0 - ic.getD 4 0 ∧
     (equality_constraints q (convert_initial_conditions ic)
        mass friction dt N).getD 4 0
       = chanGet q N 4 0 -
           max (-(state_bounds 2))
             (min (state_bounds 2) (ic.getD 6 0 * mass + friction * ic.getD 3 0)) ∧
     (equality_constraints q (convert_initial_conditions ic)
        mass friction dt N).getD 5 0
       = chanGet q N 5 0 -
           max (-(state_bounds 2))
             (min (state_bounds 2) (ic.getD 7 0 * mass + friction * ic.getD 4 0))) := by
  have hpos : (0 : ℚ) < state_bounds 2 := by norm_num [state_bounds]
  have hset6 : 6 < ic.length := by omega
  have hset7 : 7 < (ic.set 6 (compute_control (ic.getD 6 0) (ic.getD 3 0)
      (state_bounds 2))).length := by
    simpa using by omega
  have h6 : (convert_initial_conditions ic).getD 6 0
      = max (-(state_bounds 2))
          (min (state_bounds 2) (ic.getD 6 0 * mass + friction * ic.getD 3 0)) := by
    unfold convert_initial_conditions
    rw [getD_set_ne _ _ _ _ (by omega), getD_set_self _ _ _ hset6,
      compute_control_clamp _ _ _ hpos]
  have h7 : (convert_initial_conditions ic).getD 7 0
      = max (-(state_bounds 2))
          (min (state_bounds 2) (ic.getD 7 0 * mass + friction * ic.getD 4 0)) := by
    unfold convert_initial_conditions
    rw [getD_set_self _ _ _ hset7, compute_control_clamp _ _ _ hpos]
  have hkeep : ∀ k, k ≠ 6 → k ≠ 7 →
      (convert_initial_conditions ic).getD k 0 = ic.getD k 0 := by
    intro k hk6 hk7
    unfold convert_initial_conditions
    rw [getD_set_ne _ _ _ _ (fun h => hk7 h.symm),
      getD_set_ne _ _ _ _ (fun h => hk6 h.symm)]
  obtain ⟨e0, e1, e2, e3, e4, e5⟩ :=
    eq_rows_initial q (convert_initial_conditions ic) mass friction dt N
  refine ⟨⟨hkeep 0 (by omega) (by omega), hkeep 1 (by omega) (by omega),
      hkeep 3 (by omega) (by omega), hkeep 4 (by omega) (by omega)⟩,
    ⟨h6, h7⟩, ?_⟩
  rw [e0, e1, e2, e3, e4, e5, h6, h7,
    hkeep 0 (by omega) (by omega), hkeep 1 (by omega) (by omega),
    hkeep 3 (by omega) (by omega), hkeep 4 (by omega) (by omega)]
  exact ⟨rfl, rfl, rfl, rfl, rfl, rfl⟩

/-- Concrete initial condition used by the C3 witness. -/
def c3ic : List ℚ := [1, 2, 0, 3, 4, 0, 10, 5, 0]

/-- Concrete design vector used by the C3 witness. -/
def c3q : List ℚ := List.replicate 18 0

/-- Witness for `C3_initial_condition_handling` at a concrete length-9
initial condition. -/
theorem C3_initial_condition_handling_witness :
    c3ic.length = 9 ∧
    (((convert_initial_conditions c3ic).getD 0 0 = c3ic.getD 0 0 ∧
      (convert_initial_conditions c3ic).getD 1 0 = c3ic.getD 1 0 ∧
      (convert_initial_conditions c3ic).getD 3 0 = c3ic.getD 3 0 ∧
      (convert_initial_conditions c3ic).getD 4 0 = c3ic.getD 4 0) ∧
     ((convert_initial_conditions c3ic).getD 6 0
         = max (-(state_bounds 2))
             (min (state_bounds 2)
               (c3ic.getD 6 0 * mass + friction * c3ic.getD 3 0)) ∧
      (convert_initial_conditions c3ic).getD 7 0
         = max (-(state_bounds 2))
             (min (state_bounds 2)
               (c3ic.getD 7 0 * mass + friction * c3ic.getD 4 0))) ∧
     ((equality_constraints c3q (convert_initial_conditions c3ic)
         mass friction (1/2) 2).getD 0 0
           = chanGet c3q 2 0 0 - c3ic.getD 0 0 ∧
      (equality_constraints c3q (convert_initial_conditions c3ic)
         mass friction (1/2) 2).getD 1 0
           = chanGet c3q 2 1 0 - c3ic.getD 1 0 ∧
      (equality_constraints c3q (convert_initial_conditions c3ic)
         mass friction (1/2) 2).getD 2 0
           = chanGet c3q 2 2 0 - c3ic.getD 3 0 ∧
      (equality_constraints c3q (convert_initial_conditions c3ic)
         mass friction (1/2) 2).getD 3 0
           = chanGet c3q 2 3 0 - c3ic.getD 4 0 ∧
      (equality_constraints c3q (convert_initial_conditions c3ic)
         mass friction (1/2) 2).getD 4 0
           = chanGet c3q 2 4 0 -
               max (-(state_bounds 2))
                 (min (state_bounds 2)
                   (c3ic.getD 6 0 * mass + friction * c3ic.getD 3 0)) ∧
      (equality_constraints c3q (convert_initial_conditions c3ic)
         mass friction (1/2) 2).getD 5 0
           = chanGet c3q 2 5 0 -
               max (-(state_bounds 2))
                 (min (state_bounds 2)
                   (c3ic.getD 7 0 * mass + friction * c3ic.getD 4 0)))) :=
  ⟨by decide, C3_initial_condition_handling c3ic c3q (1/2) 2 (by decide)⟩

/-- C3 counterexample: for the initial condition `[0,...,0, ddx=10, 0, 0]`
the converted control stored at index 6 is the saturated value `0.075`,
not the drag-model value `10 * mass + friction * 0 = 0.27` the claim
requires to be reproduced exactly. -/
theorem C3_counterexample :
    (convert_initial_conditions
        [0, 0, 0, 0, 0, 0, 10, 0, 0]).getD 6 0
      ≠ (10 : ℚ) * mass + friction * 0 := by
  have habs : |(27 / 100 : ℚ)| = 27 / 100 := abs_of_pos (by norm_num)
  norm_num [convert_initial_conditions, compute_control, np_sign, mass,
    friction, state_bounds, habs]

/-- C4 (amended): per tick the inequality residual consists of `4*N`
workspace rows — the pair of one-sided rows for an axis and node is
equivalent to `|position| - limit - slack_position ≤ 0` — followed by a
risk block of `spline_resolution * N` rows, one row for EVERY pair of
`(slope, intercept)` spline parameter and node (the full outer product,
not one row per node), each of the form
`slack_risk - (slope*linearized_distance + intercept)` with
`linearized_distance` the projection of `(obstacle - agent)` onto the
halfspace vector divided by that vector's magnitude. -/
theorem C4_inequality_residual_shape (q : List ℚ)
    (obs_x obs_y hs_x hs_y normh slope intercept : ℕ → ℚ)
    (limit_x limit_y : ℚ) (N SR : ℕ)
    (hn : ∀ j < N, 0 ≤ normh j ∧ normh j * normh j = hs_x j * hs_x j + hs_y j * hs_y j) :
    (inequality_constraints q obs_x obs_y hs_x hs_y normh slope intercept
        limit_x limit_y N SR).length = 4 * N + SR * N ∧
    (∀ j : Fin N,
      ((inequality_constraints q obs_x obs_y hs_x hs_y normh slope intercept
          limit_x limit_y N SR).getD j 0 ≤ 0 ∧
       (inequality_constraints q obs_x obs_y hs_x hs_y normh slope intercept
          limit_x limit_y N SR).getD (2 * N + j) 0 ≤ 0 ↔
        |chanGet q N 0 j| - limit_x - chanGet q N 6 j ≤ 0) ∧
      ((inequality_constraints q obs_x obs_y hs_x hs_y normh slope intercept
          limit_x limit_y N SR).getD (N + j) 0 ≤ 0 ∧
       (inequality_constraints q obs_x obs_y hs_x hs_y normh slope intercept
          limit_x limit_y N SR).getD (3 * N + j) 0 ≤ 0 ↔
        |chanGet q N 1 j| - limit_y - chanGet q N 7 j ≤ 0)) ∧
    (∀ i : Fin SR, ∀ j : Fin N,
      (inequality_constraints q obs_x obs_y hs_x hs_y normh slope intercept
          limit_x limit_y N SR).getD (4 * N + i * N + j) 0
        = chanGet q N 8 j -
            (slope i *
              (((obs_x j - chanGet q N 0 j) * hs_x j +
                (obs_y j - chanGet q N 1 j) * hs_y j) / normh j) +
             intercept i)) := by
  refine ⟨inequality_constraints_length q obs_x obs_y hs_x hs_y normh slope
      intercept limit_x limit_y N SR, ?_, ?_⟩
  · intro j
    obtain ⟨h0, h1, h2, h3⟩ := ineq_rows_area q obs_x obs_y hs_x hs_y normh
      slope intercept limit_x limit_y N SR j
    rw [h0, h1, h2, h3]
    exact ⟨area_pair_abs _ _ _, area_pair_abs _ _ _⟩
  · intro i j
    exact ineq_rows_risk q obs_x obs_y hs_x hs_y normh slope intercept
      limit_x limit_y N SR hn i j

/-- C4 counterexample: with `spline_resolution = 2` and `N = 2` the
inequality residual has `4*N + SR*N = 12` rows, not the `4*N + N = 10`
rows the claim asserts (one risk row per node). -/
theorem C4_counterexample :
    (inequality_constraints (List.replicate 18 0) (fun _ => 0) (fun _ => 0)
      (fun _ => 1) (fun _ => 0) (fun _ => 1) (fun _ => 0) (fun _ => 0)
      2 2 2 2).length ≠ 4 * 2 + 2 := by decide

/-- Witness for `C4_inequality_residual_shape` at a concrete input with an
exactly representable norm (`(3,4) ↦ 5`). -/
theorem C4_inequality_residual_shape_witness :
    (∀ j < 1, 0 ≤ (5 : ℚ) ∧ (5 : ℚ) * 5 = 3 * 3 + 4 * 4) ∧
    ((inequality_constraints (List.replicate 9 0) (fun _ => 1) (fun _ => 1)
        (fun _ => 3) (fun _ => 4) (fun _ => 5) (fun _ => 2) (fun _ => 1)
        1 1 1 1).length = 4 * 1 + 1 * 1 ∧
     (∀ j : Fin 1,
       ((inequality_constraints (List.replicate 9 0) (fun _ => 1) (fun _ => 1)
          (fun _ => 3) (fun _ => 4) (fun _ => 5) (fun _ => 2) (fun _ => 1)
          1 1 1 1).getD j 0 ≤ 0 ∧
        (inequality_constraints (List.replicate 9 0) (fun _ => 1) (fun _ => 1)
          (fun _ => 3) (fun _ => 4) (fun _ => 5) (fun _ => 2) (fun _ => 1)
          1 1 1 1).getD (2 * 1 + j) 0 ≤ 0 ↔
         |chanGet (List.replicate 9 0) 1 0 j| - 1
           - chanGet (List.replicate 9 0) 1 6 j ≤ 0) ∧
       ((inequality_constraints (List.replicate 9 0) (fun _ => 1) (fun _ => 1)
          (fun _ => 3) (fun _ => 4) (fun _ => 5) (fun _ => 2) (fun _ => 1)
          1 1 1 1).getD (1 + j) 0 ≤ 0 ∧
        (inequality_constraints (List.replicate 9 0) (fun _ => 1) (fun _ => 1)
          (fun _ => 3) (fun _ => 4) (fun _ => 5) (fun _ => 2) (fun _ => 1)
          1 1 1 1).getD (3 * 1 + j) 0 ≤ 0 ↔
         |chanGet (List.replicate 9 0) 1 1 j| - 1
           - chanGet (List.replicate 9 0) 1 7 j ≤ 0)) ∧
     (∀ i : Fin 1, ∀ j : Fin 1,
       (inequality_constraints (List.replicate 9 0) (fun _ => 1) (fun _ => 1)
          (fun _ => 3) (fun _ => 4) (fun _ => 5) (fun _ => 2) (fun _ => 1)
          1 1 1 1).getD (4 * 1 + i * 1 + j) 0
         = chanGet (List.replicate 9 0) 1 8 j -
             (2 * ((((1 : ℚ) - chanGet (List.replicate 9 0) 1 0 j) * 3 +
               (1 - chanGet (List.replicate 9 0) 1 1 j) * 4) / 5) + 1))) :=
  ⟨by intro j hj; norm_num,
   C4_inequality_residual_shape (List.replicate 9 0) (fun _ => 1)
     (fun _ => 1) (fun _ => 3) (fun _ => 4) (fun _ => 5) (fun _ => 2)
     (fun _ => 1) 1 1 1 1 (by intro j hj; norm_num)⟩

/-- C5: the equality residual has exactly `6 + 4*(N-1)` rows: six
initial-condition rows followed, block by block, by the explicit-Euler
collocation defects `x[i+1]-x[i]-dx[i]*dt`, `y[i+1]-y[i]-dy[i]*dt`,
`dx[i+1]-dx[i]-((ux[i]-friction*dx[i])/mass)*dt` and
`dy[i+1]-dy[i]-((uy[i]-friction*dy[i])/mass)*dt` for each of the `N-1`
transitions. -/
theorem C5_equality_block_rows (q ic : List ℚ) (m fr dt : ℚ) (N : ℕ) :
    (equality_constraints q ic m fr dt N).length = 6 + 4 * (N - 1) ∧
    ((equality_constraints q ic m fr dt N).getD 0 0
        = chanGet q N 0 0 - ic.getD 0 0 ∧
     (equality_constraints q ic m fr dt N).getD 1 0
        = chanGet q N 1 0 - ic.getD 1 0 ∧
     (equality_constraints q ic m fr dt N).getD 2 0
        = chanGet q N 2 0 - ic.getD 3 0 ∧
     (equality_constraints q ic m fr dt N).getD 3 0
        = chanGet q N 3 0 - ic.getD 4 0 ∧
     (equality_constraints q ic m fr dt N).getD 4 0
        = chanGet q N 4 0 - ic.getD 6 0 ∧
     (equality_constraints q ic m fr dt N).getD 5 0
        = chanGet q N 5 0 - ic.getD 7 0) ∧
    (∀ i : Fin (N - 1),
      (equality_constraints q ic m fr dt N).getD (6 + i) 0
        = chanGet q N 0 (i + 1) - chanGet q N 0 i - chanGet q N 2 i * dt ∧
      (equality_constraints q ic m fr dt N).getD (6 + (N - 1) + i) 0
        = chanGet q N 1 (i + 1) - chanGet q N 1 i - chanGet q N 3 i * dt ∧
      (equality_constraints q ic m fr dt N).getD (6 + 2 * (N - 1) + i) 0
        = chanGet q N 2 (i + 1) - chanGet q N 2 i
            - (chanGet q N 4 i - fr * chanGet q N 2 i) / m * dt ∧
      (equality_constraints q ic m fr dt N).getD (6 + 3 * (N - 1) + i) 0
        = chanGet q N 3 (i + 1) - chanGet q N 3 i
            - (chanGet q N 5 i - fr * chanGet q N 3 i) / m * dt) := by
  refine ⟨equality_constraints_length q ic m fr dt N,
    eq_rows_initial q ic m fr dt N, ?_⟩
  · intro i
    have hi : (i : ℕ) < N - 1 := i.isLt
    rw [equality_constraints_blocks]
    refine ⟨?_, ?_, ?_, ?_⟩
    · rw [getD_append_offset _ _ 6 (by simp) i,
        List.getD_append _ _ _ _ (by simp only [List.length_ofFn]; exact hi), getD_ofFn_lt _ _ _ hi]
    · have h1 : 6 + (N - 1) + (i : ℕ) = 6 + ((N - 1) + (i : ℕ)) := by omega
      rw [h1, getD_append_offset _ _ 6 (by simp) _,
        getD_append_offset _ _ (N - 1) (by simp) _,
        List.getD_append _ _ _ _ (by simp only [List.length_ofFn]; exact hi), getD_ofFn_lt _ _ _ hi]
    · have h1 : 6 + 2 * (N - 1) + (i : ℕ)
          = 6 + ((N - 1) + ((N - 1) + (i : ℕ))) := by omega
      rw [h1, getD_append_offset _ _ 6 (by simp) _,
        getD_append_offset _ _ (N - 1) (by simp) _,
        getD_append_offset _ _ (N - 1) (by simp) _,
        List.getD_append _ _ _ _ (by simp only [List.length_ofFn]; exact hi), getD_ofFn_lt _ _ _ hi]
    · have h1 : 6 + 3 * (N - 1) + (i : ℕ)
          = 6 + ((N - 1) + ((N - 1) + ((N - 1) + (i : ℕ)))) := by omega
      rw [h1, getD_append_offset _ _ 6 (by simp) _,
        getD_append_offset _ _ (N - 1) (by simp) _,
        getD_append_offset _ _ (N - 1) (by simp) _,
        getD_append_offset _ _ (N - 1) (by simp) _, getD_ofFn_lt _ _ _ hi]

/-! ## Decoder lemmas -/

/-- Channel round-trip of the warm start written by `parse_solution`:
reading channel `c < 9` of the stored warm start with the constraint
functions' reshape recovers channel `c` of the solver's solution. -/
lemma parse_warm_chan (cfg : Config) (st : EngineState) (res : SolveResult)
    (c j : ℕ) (hc : c < 9) (hj : j < cfg.nodes) :
    chanGet (parse_solution cfg st res).warm_start cfg.nodes c j
      = chanGet res.solution cfg.nodes c j := by
  show chanGet (List.flatten _) cfg.nodes c j = _
  rw [chanGet, getD_flatten_const _ cfg.nodes ?hlen c j hj]
  case hlen =>
    intro s hs
    simp only [List.mem_cons, List.not_mem_nil, or_false] at hs
    rcases hs with rfl | rfl | rfl | rfl | rfl | rfl | rfl | rfl | rfl <;>
      simp
  interval_cases c <;>
    simp only [List.getD_cons_zero, List.getD_cons_succ] <;>
    rw [getD_ofFn_lt _ _ _ hj]

/-- Channels of the published trajectory written by `parse_solution`:
positions and velocities are copied from the solution, accelerations are
recomputed through `compute_acceleration`. -/
lemma parse_traj_chan (cfg : Config) (st : EngineState) (res : SolveResult)
    (j : ℕ) (hj : j < cfg.nodes) :
    (∀ c, c < 4 →
      chanGet (parse_solution cfg st res).full_state_trajectory cfg.nodes c j
        = chanGet res.solution cfg.nodes c j) ∧
    chanGet (parse_solution cfg st res).full_state_trajectory cfg.nodes 4 j
      = compute_acceleration (chanGet res.solution cfg.nodes 4 j)
          (chanGet res.solution cfg.nodes 2 j) ∧
    chanGet (parse_solution cfg st res).full_state_trajectory cfg.nodes 5 j
      = compute_acceleration (chanGet res.solution cfg.nodes 5 j)
          (chanGet res.solution cfg.nodes 3 j) := by
  have hlen : ∀ s ∈ [List.ofFn fun k : Fin cfg.nodes =>
        chanGet res.solution cfg.nodes 0 k,
      List.ofFn fun k : Fin cfg.nodes => chanGet res.solution cfg.nodes 1 k,
      List.ofFn fun k : Fin cfg.nodes => chanGet res.solution cfg.nodes 2 k,
      List.ofFn fun k : Fin cfg.nodes => chanGet res.solution cfg.nodes 3 k,
      List.ofFn fun k : Fin cfg.nodes =>
        compute_acceleration (chanGet res.solution cfg.nodes 4 k)
          (chanGet res.solution cfg.nodes 2 k),
      List.ofFn fun k : Fin cfg.nodes =>
        compute_acceleration (chanGet res.solution cfg.nodes 5 k)
          (chanGet res.solution cfg.nodes 3 k)], s.length = cfg.nodes := by
    intro s hs
    simp only [List.mem_cons, List.not_mem_nil, or_false] at hs
    rcases hs with rfl | rfl | rfl | rfl | rfl | rfl <;> simp
  refine ⟨?_, ?_, ?_⟩
  · intro c hc
    show chanGet (List.flatten _) cfg.nodes c j = _
    rw [chanGet, getD_flatten_const _ cfg.nodes hlen c j hj]
    interval_cases c <;>
      simp only [List.getD_cons_zero, List.getD_cons_succ] <;>
      rw [getD_ofFn_lt _ _ _ hj]
  · show chanGet (List.flatten _) cfg.nodes 4 j = _
    rw [chanGet, getD_flatten_const _ cfg.nodes hlen 4 j hj]
    simp only [List.getD_cons_zero, List.getD_cons_succ]
    rw [getD_ofFn_lt _ _ _ hj]
  · show chanGet (List.flatten _) cfg.nodes 5 j = _
    rw [chanGet, getD_flatten_const _ cfg.nodes hlen 5 j hj]
    simp only [List.getD_cons_zero, List.getD_cons_succ]
    rw [getD_ofFn_lt _ _ _ hj]

lemma parse_solution_lengths (cfg : Config) (st : EngineState)
    (res : SolveResult) :
    (parse_solution cfg st res).full_state_trajectory.length = 6 * cfg.nodes ∧
    (parse_solution cfg st res).warm_start.length = 9 * cfg.nodes := by
  constructor <;>
    · show (List.flatten _).length = _
      rw [List.length_flatten]
      simp only [List.map_cons, List.map_nil, List.length_ofFn,
        List.sum_cons, List.sum_nil]
      ring

/-- C8: after a solve the decoder derives accelerations as
`(control - friction*velocity)/mass`, publishes a `6*N` channel-major
trajectory `[x, y, dx, dy, ddx, ddy]` (also written to the declared
abstract output state), and stores the `9*N` warm start
`[x, y, dx, dy, ux, uy, sx, sy, s]` in exactly the channel order the
constraint functions read back on the next tick. -/
theorem C8_solution_decoder (cfg : Config) (st : EngineState)
    (res : SolveResult) :
    (parse_solution cfg st res).full_state_trajectory.length = 6 * cfg.nodes ∧
    (parse_solution cfg st res).warm_start.length = 9 * cfg.nodes ∧
    (∀ j : Fin cfg.nodes,
      (∀ c : Fin 4,
        chanGet (parse_solution cfg st res).full_state_trajectory
            cfg.nodes c j = chanGet res.solution cfg.nodes c j) ∧
      chanGet (parse_solution cfg st res).full_state_trajectory cfg.nodes 4 j
        = (chanGet res.solution cfg.nodes 4 j -
            friction * chanGet res.solution cfg.nodes 2 j) / mass ∧
      chanGet (parse_solution cfg st res).full_state_trajectory cfg.nodes 5 j
        = (chanGet res.solution cfg.nodes 5 j -
            friction * chanGet res.solution cfg.nodes 3 j) / mass) ∧
    (∀ c : Fin 9, ∀ j : Fin cfg.nodes,
      chanGet (parse_solution cfg st res).warm_start cfg.nodes c j
        = chanGet res.solution cfg.nodes c j) ∧
    (parse_solution cfg st res).abstract_state
      = (parse_solution cfg st res).full_state_trajectory := by
  obtain ⟨hlt, hlw⟩ := parse_solution_lengths cfg st res
  refine ⟨hlt, hlw, ?_, ?_, rfl⟩
  · intro j
    obtain ⟨hc03, hc4, hc5⟩ := parse_traj_chan cfg st res j j.isLt
    exact ⟨fun c => hc03 c c.isLt, hc4, hc5⟩
  · intro c j
    exact parse_warm_chan cfg st res c j c.isLt j.isLt

/-- Configuration used for the concrete C1 and C2 evaluations:
`N = 2` nodes, horizon 1, `dt = 1/2`, one spline segment, area bound 2. -/
def c1cfg : Config :=
  { nodes := 2, time_horizon := 1, dt := 1/2, spline_resolution := 1,
    area_bounds := 2 }

/-- A failed solver result whose returned vector is all ones. -/
def c1res : SolveResult :=
  { is_success := false, solution := List.replicate 18 1 }

/-- C1: the code does NOT leave its state unchanged on a failed solve —
`parse_solution` only prints and enters the debugger when
`is_success` is false and then unconditionally decodes the returned
vector: after this failed tick both the warm start and the published
trajectory differ from their previous values. -/
theorem C1_failed_solve_overwrites_state :
    c1res.is_success = false ∧
    (parse_solution c1cfg (preBuildState c1cfg) c1res).warm_start
      ≠ (preBuildState c1cfg).warm_start ∧
    (parse_solution c1cfg (preBuildState c1cfg) c1res).full_state_trajectory
      ≠ (preBuildState c1cfg).full_state_trajectory := by
  have hw1 : chanGet (parse_solution c1cfg (preBuildState c1cfg)
      c1res).warm_start c1cfg.nodes 0 0 = 1 := by
    rw [parse_warm_chan c1cfg _ c1res 0 0 (by norm_num) (by norm_num [c1cfg])]
    rfl
  have ht1 : chanGet (parse_solution c1cfg (preBuildState c1cfg)
      c1res).full_state_trajectory c1cfg.nodes 0 0 = 1 := by
    rw [(parse_traj_chan c1cfg _ c1res 0 (by norm_num [c1cfg])).1 0
      (by norm_num)]
    rfl
  refine ⟨rfl, ?_, ?_⟩
  · intro h
    rw [h] at hw1
    have : (0 : ℚ) = 1 := by rw [← hw1]; rfl
    exact absurd this (by norm_num)
  · intro h
    rw [h] at ht1
    have : (0 : ℚ) = 1 := by rw [← ht1]; rfl
    exact absurd this (by norm_num)

/-! ## Engine state-machine lemmas -/

lemma getD_map_neg (l : List ℚ) (i : ℕ) (h : i < l.length) :
    (l.map Neg.neg).getD i 0 = -(l.getD i 0) := by
  rw [List.getD_eq_getElem _ _ (by simpa using h), List.getD_eq_getElem _ _ h,
    List.getElem_map]

lemma getD_replicate_lt {α : Type} (a d : α) (n i : ℕ) (h : i < n) :
    (List.replicate n a).getD i d = a := by
  rw [List.getD_eq_getElem _ _ (by simpa using h)]
  simp

/-- A tick never writes `self._setpoint`. -/
lemma tick_setpoint (cfg : Config) (normh : ℕ → ℚ) (st : EngineState)
    (inp : TickInputs) (res : SolveResult) :
    (tick cfg normh st inp res).setpoint = st.setpoint := rfl

/-- `self._setpoint` is invariant across any sequence of ticks. -/
lemma foldl_tick_setpoint (cfg : Config) (normh : ℕ → ℚ)
    (ticks : List (TickInputs × SolveResult)) (st : EngineState) :
    (ticks.foldl (fun s p => tick cfg normh s p.1 p.2) st).setpoint
      = st.setpoint := by
  induction ticks generalizing st with
  | nil => rfl
  | cons t ts ih => rw [List.foldl_cons, ih, tick_setpoint]

/-- State used by the C2 counterexample: a warm start that differs from
the zero setpoint in its first entry. -/
def c2st : EngineState :=
  { preBuildState c1cfg with warm_start := 1 :: List.replicate 17 0 }

/-- All-zero tick inputs used by the C2 counterexample. -/
def c2inp : TickInputs :=
  { initial_condition := List.replicate 9 0,
    obstacle_states := List.replicate 6 0,
    risk_constraints := List.replicate 2 0 }

/-- C2 counterexample: the equality bound pushed into the QP is NOT the
negated residual at the warm start — with a warm start whose first entry
is 1 the two vectors differ in row 0 (`0` versus `-1`), because the code
evaluates all residuals at the fixed zero `_setpoint`. -/
theorem C2_counterexample :
    (update_qp_coeffs c1cfg (fun _ => 0) c2st c2inp).b_eq
      ≠ (equality_constraints c2st.warm_start
          (convert_initial_conditions c2inp.initial_condition)
          mass friction c1cfg.dt c1cfg.nodes).map Neg.neg := by
  have hlenS : 0 < (equality_constraints c2st.setpoint
      (convert_initial_conditions c2inp.initial_condition)
      mass friction c1cfg.dt c1cfg.nodes).length := by
    rw [equality_constraints_length]
    norm_num
  have hlenW : 0 < (equality_constraints c2st.warm_start
      (convert_initial_conditions c2inp.initial_condition)
      mass friction c1cfg.dt c1cfg.nodes).length := by
    rw [equality_constraints_length]
    norm_num
  have hL : (update_qp_coeffs c1cfg (fun _ => 0) c2st c2inp).b_eq.getD 0 0
      = 0 := by
    show ((equality_constraints c2st.setpoint
        (convert_initial_conditions c2inp.initial_condition)
        mass friction c1cfg.dt c1cfg.nodes).map Neg.neg).getD 0 0 = 0
    rw [getD_map_neg _ _ hlenS,
      (eq_rows_initial c2st.setpoint _ mass friction c1cfg.dt c1cfg.nodes).1]
    have h1 : chanGet c2st.setpoint c1cfg.nodes 0 0 = 0 := rfl
    have h2 : (convert_initial_conditions c2inp.initial_condition).getD 0 0
        = 0 := rfl
    rw [h1, h2]
    norm_num
  have hR : ((equality_constraints c2st.warm_start
      (convert_initial_conditions c2inp.initial_condition)
      mass friction c1cfg.dt c1cfg.nodes).map Neg.neg).getD 0 0 = -1 := by
    rw [getD_map_neg _ _ hlenW,
      (eq_rows_initial c2st.warm_start _ mass friction c1cfg.dt
        c1cfg.nodes).1]
    have h1 : chanGet c2st.warm_start c1cfg.nodes 0 0 = 1 := rfl
    have h2 : (convert_initial_conditions c2inp.initial_condition).getD 0 0
        = 0 := rfl
    rw [h1, h2]
    norm_num
  intro h
  rw [h] at hL
  rw [hL] at hR
  exact absurd hR (by norm_num)

/-- C2 (amended): the operating point at which the residuals are
evaluated — and whose negated residuals become the constraint bounds — is
the engine's `_setpoint` vector, which is the all-zero vector allocated at
construction and never mutated by any tick; it is NOT the warm start.
The warm start of the previous accepted solve enters the coefficients
only through the halfspace vector and is passed to the solver as the
initial guess. -/
theorem C2_operating_point_is_fixed_setpoint (cfg : Config)
    (normh : ℕ → ℚ) (st : EngineState) (inp inp0 : TickInputs)
    (res res0 : SolveResult) (ticks : List (TickInputs × SolveResult)) :
    (update_qp_coeffs cfg normh st inp).b_eq
      = (equality_constraints st.setpoint
          (convert_initial_conditions inp.initial_condition)
          mass friction cfg.dt cfg.nodes).map Neg.neg ∧
    (preBuildState cfg).setpoint
      = List.replicate ((full_size + num_slack) * cfg.nodes) 0 ∧
    (tick cfg normh st inp res).setpoint = st.setpoint ∧
    ((ticks.foldl (fun s p => tick cfg normh s p.1 p.2)
        (build_optimization cfg normh inp0 res0)).setpoint
      = List.replicate ((full_size + num_slack) * cfg.nodes) 0) :=
  ⟨rfl, rfl, rfl, by rw [foldl_tick_setpoint]; rfl⟩

/-- C6: the obstacle trajectory used by the risk constraint is the
constant-velocity projection `obstacle_pos + obstacle_vel * t_j` over the
node times, and the halfspace vector is that projection minus the
previous planned position read from the current warm start; the
inequality bounds pushed this tick are the negated inequality residual
built from exactly these quantities. -/
theorem C6_obstacle_projection_halfspace (cfg : Config) (normh : ℕ → ℚ)
    (st : EngineState) (inp : TickInputs) :
    (update_qp_coeffs cfg normh st inp).b_ineq_ub
      = (inequality_constraints st.setpoint
          (fun j => inp.obstacle_states.getD 0 0 +
            inp.obstacle_states.getD 3 0 * timeVector cfg j)
          (fun j => inp.obstacle_states.getD 1 0 +
            inp.obstacle_states.getD 4 0 * timeVector cfg j)
          (fun j => (inp.obstacle_states.getD 0 0 +
            inp.obstacle_states.getD 3 0 * timeVector cfg j) -
              chanGet st.warm_start cfg.nodes 0 j)
          (fun j => (inp.obstacle_states.getD 1 0 +
            inp.obstacle_states.getD 4 0 * timeVector cfg j) -
              chanGet st.warm_start cfg.nodes 1 j)
          normh
          (fun i => inp.risk_constraints.getD (2 * i) 0)
          (fun i => inp.risk_constraints.getD (2 * i + 1) 0)
          cfg.area_bounds cfg.area_bounds cfg.nodes
          cfg.spline_resolution).map Neg.neg := by
  have hx : (fun j => inp.obstacle_states.getD 3 0 * timeVector cfg j +
      inp.obstacle_states.getD 0 0)
      = (fun j => inp.obstacle_states.getD 0 0 +
        inp.obstacle_states.getD 3 0 * timeVector cfg j) :=
    funext fun j => by ring
  have hy : (fun j => inp.obstacle_states.getD 4 0 * timeVector cfg j +
      inp.obstacle_states.getD 1 0)
      = (fun j => inp.obstacle_states.getD 1 0 +
        inp.obstacle_states.getD 4 0 * timeVector cfg j) :=
    funext fun j => by ring
  show (inequality_constraints st.setpoint
      (fun j => inp.obstacle_states.getD 3 0 * timeVector cfg j +
        inp.obstacle_states.getD 0 0)
      (fun j => inp.obstacle_states.getD 4 0 * timeVector cfg j +
        inp.obstacle_states.getD 1 0)
      (fun j => (inp.obstacle_states.getD 3 0 * timeVector cfg j +
        inp.obstacle_states.getD 0 0) - chanGet st.warm_start cfg.nodes 0 j)
      (fun j => (inp.obstacle_states.getD 4 0 * timeVector cfg j +
        inp.obstacle_states.getD 1 0) - chanGet st.warm_start cfg.nodes 1 j)
      normh
      (fun i => inp.risk_constraints.getD (2 * i) 0)
      (fun i => inp.risk_constraints.getD (2 * i + 1) 0)
      cfg.area_bounds cfg.area_bounds cfg.nodes
      cfg.spline_resolution).map Neg.neg = _
  rw [show (fun j => (inp.obstacle_states.getD 3 0 * timeVector cfg j +
      inp.obstacle_states.getD 0 0) - chanGet st.warm_start cfg.nodes 0 j)
      = (fun j => (inp.obstacle_states.getD 0 0 +
        inp.obstacle_states.getD 3 0 * timeVector cfg j) -
          chanGet st.warm_start cfg.nodes 0 j) from funext fun j => by ring,
    show (fun j => (inp.obstacle_states.getD 4 0 * timeVector cfg j +
      inp.obstacle_states.getD 1 0) - chanGet st.warm_start cfg.nodes 1 j)
      = (fun j => (inp.obstacle_states.getD 1 0 +
        inp.obstacle_states.getD 4 0 * timeVector cfg j) -
          chanGet st.warm_start cfg.nodes 1 j) from funext fun j => by ring,
    hx, hy]

/-- C9: the per-tick coefficient rebuild is deterministic and idempotent:
pushing the rebuilt coefficients into the program (`UpdateCoefficients`)
touches neither the warm start nor the setpoint, so rebuilding again from
the updated engine state with the same tick inputs yields exactly the
same `A_eq, b_eq, A_ineq, bounds, H, f`. -/
theorem C9_rebuild_idempotent (cfg : Config) (normh : ℕ → ℚ)
    (st : EngineState) (inp : TickInputs) :
    update_qp_coeffs cfg normh
        (applyCoeffs st (update_qp_coeffs cfg normh st inp)) inp
      = update_qp_coeffs cfg normh st inp ∧
    (applyCoeffs st (update_qp_coeffs cfg normh st inp)).warm_start
      = st.warm_start ∧
    (applyCoeffs st (update_qp_coeffs cfg normh st inp)).setpoint
      = st.setpoint :=
  ⟨rfl, rfl, rfl⟩

/-- C10: the cost Hessian and gradient recomputed on any later tick equal
the ones computed at first construction: they are the (exact) second and
first derivatives of the fixed quadratic objective at the engine's
`_setpoint`, which no tick ever mutates. -/
theorem C10_cost_hessian_gradient_constant (cfg : Config) (normh : ℕ → ℚ)
    (inp0 inpk : TickInputs) (res0 : SolveResult)
    (ticks : List (TickInputs × SolveResult)) :
    (update_qp_coeffs cfg normh
        (ticks.foldl (fun s p => tick cfg normh s p.1 p.2)
          (build_optimization cfg normh inp0 res0)) inpk).H
      = (update_qp_coeffs cfg normh (preBuildState cfg) inp0).H ∧
    (update_qp_coeffs cfg normh
        (ticks.foldl (fun s p => tick cfg normh s p.1 p.2)
          (build_optimization cfg normh inp0 res0)) inpk).f
      = (update_qp_coeffs cfg normh (preBuildState cfg) inp0).f ∧
    (ticks.foldl (fun s p => tick cfg normh s p.1 p.2)
        (build_optimization cfg normh inp0 res0)).setpoint
      = (preBuildState cfg).setpoint := by
  have hsp : (ticks.foldl (fun s p => tick cfg normh s p.1 p.2)
      (build_optimization cfg normh inp0 res0)).setpoint
      = (preBuildState cfg).setpoint := by
    rw [foldl_tick_setpoint]
    rfl
  refine ⟨?_, ?_, hsp⟩
  · show hess_fd (fun q => objective_function q weights cfg.nodes) _
        = hess_fd (fun q => objective_function q weights cfg.nodes) _
    rw [hsp]
  · show grad_fd (fun q => objective_function q weights cfg.nodes) _
        = grad_fd (fun q => objective_function q weights cfg.nodes) _
    rw [hsp]

/-! ## Box-bound lemmas -/

lemma num_opt_vars_eq (cfg : Config) : num_opt_vars cfg = 9 * cfg.nodes := by
  unfold num_opt_vars full_size num_slack num_state_slack num_risk_slack
    state_dimension
  omega

lemma opt_var_lb_length (N : ℕ) : (opt_var_lb N).length = 9 * N := by
  unfold opt_var_lb
  rw [List.length_flatten]
  simp only [List.map_cons, List.map_nil, List.length_replicate,
    List.sum_cons, List.sum_nil]
  unfold state_dimension num_state_slack num_risk_slack
  omega

lemma opt_var_ub_length (N : ℕ) : (opt_var_ub N).length = 9 * N := by
  unfold opt_var_ub
  rw [List.length_flatten]
  simp only [List.map_cons, List.map_nil, List.length_replicate,
    List.sum_cons, List.sum_nil]
  unfold state_dimension num_state_slack num_risk_slack
  omega

lemma opt_var_lb_pos_slack (N j : ℕ) (hj : j < 2 * N) :
    (opt_var_lb N).getD (6 * N + j) none = some 0 := by
  unfold opt_var_lb
  simp only [List.flatten_cons, List.flatten_nil, List.append_nil]
  have h6 : 6 * N + j = state_dimension * N +
      (state_dimension * N + (state_dimension * N + j)) := by
    unfold state_dimension
    omega
  rw [h6, getD_append_offset _ _ _ (by simp) _,
    getD_append_offset _ _ _ (by simp) _,
    getD_append_offset _ _ _ (by simp) _,
    List.getD_append _ _ _ _ (by
      simp only [List.length_replicate]
      unfold num_state_slack
      omega),
    getD_replicate_lt _ _ _ _ (by unfold num_state_slack; omega)]

lemma opt_var_ub_pos_slack (N j : ℕ) (hj : j < 2 * N) :
    (opt_var_ub N).getD (6 * N + j) none = none := by
  unfold opt_var_ub
  simp only [List.flatten_cons, List.flatten_nil, List.append_nil]
  have h6 : 6 * N + j = state_dimension * N +
      (state_dimension * N + (state_dimension * N + j)) := by
    unfold state_dimension
    omega
  rw [h6, getD_append_offset _ _ _ (by simp) _,
    getD_append_offset _ _ _ (by simp) _,
    getD_append_offset _ _ _ (by simp) _,
    List.getD_append _ _ _ _ (by
      simp only [List.length_replicate]
      unfold num_state_slack
      omega),
    getD_replicate_lt _ _ _ _ (by unfold num_state_slack; omega)]

lemma opt_var_lb_risk_slack (N j : ℕ) (hj : j < N) :
    (opt_var_lb N).getD (8 * N + j) none = none := by
  unfold opt_var_lb
  simp only [List.flatten_cons, List.flatten_nil, List.append_nil]
  have h8 : 8 * N + j = state_dimension * N + (state_dimension * N +
      (state_dimension * N + (num_state_slack * N + j))) := by
    unfold state_dimension num_state_slack
    omega
  rw [h8, getD_append_offset _ _ _ (by simp) _,
    getD_append_offset _ _ _ (by simp) _,
    getD_append_offset _ _ _ (by simp) _,
    getD_append_offset _ _ _ (by simp) _,
    getD_replicate_lt _ _ _ _ (by unfold num_risk_slack; omega)]

lemma opt_var_ub_risk_slack (N j : ℕ) (hj : j < N) :
    (opt_var_ub N).getD (8 * N + j) none = some 0 := by
  unfold opt_var_ub
  simp only [List.flatten_cons, List.flatten_nil, List.append_nil]
  have h8 : 8 * N + j = state_dimension * N + (state_dimension * N +
      (state_dimension * N + (num_state_slack * N + j))) := by
    unfold state_dimension num_state_slack
    omega
  rw [h8, getD_append_offset _ _ _ (by simp) _,
    getD_append_offset _ _ _ (by simp) _,
    getD_append_offset _ _ _ (by simp) _,
    getD_append_offset _ _ _ (by simp) _,
    getD_replicate_lt _ _ _ _ (by unfold num_risk_slack; omega)]

/-- C7: the QP has `(6 + 3) * N` decision variables; the box-bound
vectors have exactly that length; their entries at the two position-slack
channels are `[0, +inf)` and at the risk-slack channel `(-inf, 0]`
(so the sign constraints live in the bounding box, not in the linear
blocks); and every vector satisfying the box bounds has `sx, sy ≥ 0` and
`s ≤ 0` at every node. -/
theorem C7_slack_sign_box_bounds (cfg : Config) :
    num_opt_vars cfg = (6 + 3) * cfg.nodes ∧
    (opt_var_lb cfg.nodes).length = num_opt_vars cfg ∧
    (opt_var_ub cfg.nodes).length = num_opt_vars cfg ∧
    (∀ j : Fin (2 * cfg.nodes),
      (opt_var_lb cfg.nodes).getD (6 * cfg.nodes + j) none = some 0 ∧
      (opt_var_ub cfg.nodes).getD (6 * cfg.nodes + j) none = none) ∧
    (∀ j : Fin cfg.nodes,
      (opt_var_lb cfg.nodes).getD (8 * cfg.nodes + j) none = none ∧
      (opt_var_ub cfg.nodes).getD (8 * cfg.nodes + j) none = some 0) ∧
    (∀ q : List ℚ, satisfiesBox cfg q → ∀ j : Fin cfg.nodes,
      0 ≤ chanGet q cfg.nodes 6 j ∧ 0 ≤ chanGet q cfg.nodes 7 j ∧
      chanGet q cfg.nodes 8 j ≤ 0) := by
  refine ⟨by rw [num_opt_vars_eq],
    by rw [opt_var_lb_length, num_opt_vars_eq],
    by rw [opt_var_ub_length, num_opt_vars_eq],
    fun j => ⟨opt_var_lb_pos_slack _ _ j.isLt, opt_var_ub_pos_slack _ _ j.isLt⟩,
    fun j => ⟨opt_var_lb_risk_slack _ _ j.isLt, opt_var_ub_risk_slack _ _ j.isLt⟩,
    ?_⟩
  intro q hbox j
  have hjN : (j : ℕ) < cfg.nodes := j.isLt
  have h6 := hbox (6 * cfg.nodes + j) (by rw [num_opt_vars_eq]; omega)
  have h7 := hbox (7 * cfg.nodes + j) (by rw [num_opt_vars_eq]; omega)
  have h8 := hbox (8 * cfg.nodes + j) (by rw [num_opt_vars_eq]; omega)
  refine ⟨?_, ?_, ?_⟩
  · have h := h6.1
    rw [opt_var_lb_pos_slack _ _ (by omega)] at h
    simp only [lbOk, Option.all_some, decide_eq_true_eq] at h
    exact h
  · have h := h7.1
    have hidx : 7 * cfg.nodes + (j : ℕ)
        = 6 * cfg.nodes + (cfg.nodes + (j : ℕ)) := by omega
    rw [hidx] at h
    rw [opt_var_lb_pos_slack _ _ (by omega)] at h
    simp only [lbOk, Option.all_some, decide_eq_true_eq] at h
    show (0 : ℚ) ≤ q.getD (7 * cfg.nodes + (j : ℕ)) 0
    rw [show 7 * cfg.nodes + (j : ℕ)
      = 6 * cfg.nodes + (cfg.nodes + (j : ℕ)) from by omega]
    exact h
  · have h := h8.2
    rw [opt_var_ub_risk_slack _ _ (by omega)] at h
    simp only [ubOk, Option.all_some, decide_eq_true_eq] at h
    exact h

lemma getD_replicate_zero (n i : ℕ) : (List.replicate n (0 : ℚ)).getD i 0 = 0 := by
  rcases lt_or_ge i n with h | h
  · exact getD_replicate_lt _ _ _ _ h
  · rw [List.getD_eq_default _ _ (by simpa using h)]

lemma lbOk_opt_var_lb_zero (N i : ℕ) :
    lbOk ((opt_var_lb N).getD i none) 0 = true := by
  rcases lt_or_ge i (opt_var_lb N).length with h | h
  · have hm : (opt_var_lb N).getD i none ∈ opt_var_lb N := by
      rw [List.getD_eq_getElem _ _ h]
      exact List.getElem_mem h
    unfold opt_var_lb at hm
    rw [List.mem_flatten] at hm
    obtain ⟨s, hs, ha⟩ := hm
    simp only [List.mem_cons, List.not_mem_nil, or_false] at hs
    rcases hs with rfl | rfl | rfl | rfl | rfl <;>
      · have hv := List.eq_of_mem_replicate ha
        unfold opt_var_lb
        rw [hv]
        norm_num [lbOk, state_bounds]
  · rw [List.getD_eq_default _ _ (by simpa using h)]
    rfl

lemma ubOk_opt_var_ub_zero (N i : ℕ) :
    ubOk ((opt_var_ub N).getD i none) 0 = true := by
  rcases lt_or_ge i (opt_var_ub N).length with h | h
  · have hm : (opt_var_ub N).getD i none ∈ opt_var_ub N := by
      rw [List.getD_eq_getElem _ _ h]
      exact List.getElem_mem h
    unfold opt_var_ub at hm
    rw [List.mem_flatten] at hm
    obtain ⟨s, hs, ha⟩ := hm
    simp only [List.mem_cons, List.not_mem_nil, or_false] at hs
    rcases hs with rfl | rfl | rfl | rfl | rfl <;>
      · have hv := List.eq_of_mem_replicate ha
        unfold opt_var_ub
        rw [hv]
        norm_num [ubOk, state_bounds]
  · rw [List.getD_eq_default _ _ (by simpa using h)]
    rfl

/-- The all-zero vector satisfies the box bounds of every configuration. -/
lemma zero_satisfiesBox (cfg : Config) :
    satisfiesBox cfg (List.replicate (9 * cfg.nodes) 0) := by
  intro i hi
  rw [getD_replicate_zero]
  exact ⟨lbOk_opt_var_lb_zero cfg.nodes i, ubOk_opt_var_ub_zero cfg.nodes i⟩

/-- Witness for `C7_slack_sign_box_bounds`: the all-zero vector satisfies
the box bounds of the `N = 2` configuration and exhibits the slack signs. -/
theorem C7_slack_sign_box_bounds_witness :
    satisfiesBox c1cfg (List.replicate 18 0) ∧
    (∀ j : Fin c1cfg.nodes,
      0 ≤ chanGet (List.replicate 18 0) c1cfg.nodes 6 j ∧
      0 ≤ chanGet (List.replicate 18 0) c1cfg.nodes 7 j ∧
      chanGet (List.replicate 18 0) c1cfg.nodes 8 j ≤ 0) :=
  ⟨zero_satisfiesBox c1cfg,
   (C7_slack_sign_box_bounds c1cfg).2.2.2.2.2 (List.replicate 18 0)
     (zero_satisfiesBox c1cfg)⟩

end MotionPlanner
